import Mathlib

/-!
Verification of the doughmination backend (FastAPI + PluralKit proxy):
a shallow embedding of the caching layer, the member processing pipeline,
the websocket connection manager and the tag store, with theorems about
the properties the specification states.

Sources embedded:
  * backend/pluralkit.py  — get_members, get_fronters, set_front,
    SPECIAL_DISPLAY_NAMES
  * backend/main.py       — ConnectionManager, the /api/switch and
    member-tag endpoints
  * backend/subsystems.py — get_member_tags_by_id, remove_member_tag
-/

namespace Dough

/-! ## JSON-ish values and Python dict semantics

Member records travel as JSON objects; the code reads and overlays them
with `member.get`/`{**member, ...}`.  A dict is an insertion-ordered
association list with unique keys; `dictSet` overrides in place (as the
spread operator does) and `dictGet` looks a key up. -/

/-- A (flat) JSON value as the member-processing code uses it. -/
inductive Val where
  | vstr : String → Val
  | vbool : Bool → Val
  | vnat : Nat → Val
  deriving DecidableEq, Repr

/-- A Python dict: insertion-ordered key/value pairs. -/
abbrev PyDict := List (String × Val)

/-- `d.get(k)`: the first binding of `k`. -/
def dictGet (d : PyDict) (k : String) : Option Val :=
  match d with
  | [] => none
  | (k', v) :: rest => if k' = k then some v else dictGet rest k

/-- `{**d, k: v}`: override `k` in place, else append it. -/
def dictSet (d : PyDict) (k : String) (v : Val) : PyDict :=
  match d with
  | [] => [(k, v)]
  | (k', v') :: rest => if k' = k then (k, v) :: rest else (k', v') :: dictSet rest k v

theorem dictGet_dictSet_self (d : PyDict) (k : String) (v : Val) :
    dictGet (dictSet d k v) k = some v := by
  induction d with
  | nil => simp [dictSet, dictGet]
  | cons hd tl ih =>
    obtain ⟨k', v'⟩ := hd
    by_cases h : k' = k
    · simp [dictSet, dictGet, h]
    · simp [dictSet, dictGet, h, ih]

theorem dictGet_dictSet_ne (d : PyDict) (k k' : String) (v : Val) (h : k ≠ k') :
    dictGet (dictSet d k v) k' = dictGet d k' := by
  induction d with
  | nil => simp [dictSet, dictGet, h]
  | cons hd tl ih =>
    obtain ⟨k'', v''⟩ := hd
    by_cases hk : k'' = k
    · subst hk
      simp [dictSet, dictGet, h]
    · simp [dictSet, dictGet, hk, ih]

/-! ## The cache store

Modelled from the spec: `cache.py` (`get_from_cache`, `set_in_cache`) is
imported by `pluralkit.py` and `main.py` but is not among the repository's
staged files.  Spec §4.1: `get(key)` yields the value only while
`now < expiry`; `set(key, value, ttl)` stores the value with expiry
`now + ttl`; setting `ttl = 0` or `value = None` invalidates, forcing the
next `get` to report absent.  The callers' walrus checks
(`if (cached := get_from_cache(k)):`) additionally treat falsy payloads
(empty list) as misses, which the member functions below reproduce. -/

/-- One cache slot: an optional payload (none models a stored `None`) and an
absolute expiry instant. -/
structure CacheEntry (α : Type) where
  value : Option α
  expiry : Nat
  deriving DecidableEq, Repr

/-- The cache store: a keyed collection of slots. -/
abbrev Cache (α : Type) := List (String × CacheEntry α)

def cacheFind {α : Type} (c : Cache α) (k : String) : Option (CacheEntry α) :=
  match c with
  | [] => none
  | (k', e) :: rest => if k' = k then some e else cacheFind rest k

/-- Modelled from the spec: a read sees the payload only while fresh. -/
def get_from_cache {α : Type} (c : Cache α) (now : Nat) (k : String) : Option α :=
  match cacheFind c k with
  | some e => if now < e.expiry then e.value else none
  | none => none

/-- Modelled from the spec: store a payload under `k` with expiry `now + ttl`. -/
def set_in_cache {α : Type} (c : Cache α) (now : Nat) (k : String) (v : Option α)
    (ttl : Nat) : Cache α :=
  match c with
  | [] => [(k, ⟨v, now + ttl⟩)]
  | (k', e) :: rest =>
    if k' = k then (k, ⟨v, now + ttl⟩) :: rest
    else (k', e) :: set_in_cache rest now k v ttl

/-- Storing `None` makes every later read of that key report absent. -/
theorem get_from_cache_set_none {α : Type} (c : Cache α) (now ttl t : Nat) (k : String) :
    get_from_cache (set_in_cache c now k none ttl) t k = none := by
  induction c with
  | nil => simp [set_in_cache, get_from_cache, cacheFind]
  | cons hd tl ih =>
    obtain ⟨k', e⟩ := hd
    by_cases h : k' = k
    · simp [set_in_cache, get_from_cache, cacheFind, h]
    · simp only [set_in_cache, if_neg h]
      simpa [get_from_cache, cacheFind, h] using ih

/-- A read of a key a write did not touch is unchanged. -/
theorem get_from_cache_set_other {α : Type} (c : Cache α) (now ttl t : Nat)
    (k k' : String) (v : Option α) (h : k ≠ k') :
    get_from_cache (set_in_cache c now k v ttl) t k' = get_from_cache c t k' := by
  induction c with
  | nil => simp [set_in_cache, get_from_cache, cacheFind, h]
  | cons hd tl ih =>
    obtain ⟨k'', e⟩ := hd
    by_cases hk : k'' = k
    · subst hk
      simp [set_in_cache, get_from_cache, cacheFind, h]
    · simp only [set_in_cache, if_neg hk]
      by_cases hk' : k'' = k'
      · simp [get_from_cache, cacheFind, hk']
      · simpa [get_from_cache, cacheFind, hk'] using ih

/-! ## Member processing (pluralkit.get_members, lines 34-71) -/

/-- pluralkit.py lines 17-21. -/
def SPECIAL_DISPLAY_NAMES : List (String × String) :=
  [("answer", "Answer Machine"), ("system", "Unsure"), ("sleeping", "I am sleeping")]

def lookupSpecial (n : String) : Option String :=
  match SPECIAL_DISPLAY_NAMES.find? (fun p => p.1 = n) with
  | some p => some p.2
  | none => none

/-- The body of the `for member in data` loop of `get_members` (lines 52-68):
a member whose name is in `SPECIAL_DISPLAY_NAMES` gets its display name
replaced, `is_special = True` and `original_name` recorded; everyone else
passes through untouched. -/
def processMember (member : PyDict) : PyDict :=
  match dictGet member "name" with
  | some (Val.vstr n) =>
    match lookupSpecial n with
    | some disp =>
      dictSet (dictSet (dictSet member "display_name" (Val.vstr disp))
        "is_special" (Val.vbool true)) "original_name" (Val.vstr n)
    | none => member
  | _ => member

/-- The processed member list: the loop appends one entry per raw member. -/
def processMembers (data : List PyDict) : List PyDict :=
  data.map processMember

/-- The upstream member list a remote `GET /systems/@me/members` would return. -/
abbrev MemberList := List PyDict

/-- The member-fetch cache: both tiers ("members_raw" and "members") live in
the same store and hold member lists. -/
abbrev MCache := Cache MemberList

/-- pluralkit.py line 10, default of the `CACHE_TTL` environment variable. -/
def CACHE_TTL : Nat := 30

/-- Lines 42-46: fetch the raw list from the remote API and cache it. -/
def fetch_and_cache_raw (upstream : MemberList) (c : MCache) (now : Nat) :
    MemberList × MCache :=
  (upstream, set_in_cache c now "members_raw" (some upstream) CACHE_TTL)

/-- Lines 40-46: the raw tier — serve the cached raw list when present and
truthy, else fetch and cache it. -/
def get_raw_members (upstream : MemberList) (c : MCache) (now : Nat) :
    MemberList × MCache :=
  match get_from_cache c now "members_raw" with
  | some r => if r.isEmpty then fetch_and_cache_raw upstream c now else (r, c)
  | none => fetch_and_cache_raw upstream c now

/-- Lines 40-71: the miss path of `get_members` — obtain the raw list,
process it, cache the processed list under "members". -/
def get_members_miss (upstream : MemberList) (c : MCache) (now : Nat) :
    MemberList × MCache :=
  let rc := get_raw_members upstream c now
  let processed := processMembers rc.1
  (processed, set_in_cache rc.2 now "members" (some processed) CACHE_TTL)

/-- pluralkit.get_members (lines 34-71): serve the cached processed list
under "members" when present and truthy, else run the miss path. -/
def get_members (upstream : MemberList) (c : MCache) (now : Nat) :
    MemberList × MCache :=
  match get_from_cache c now "members" with
  | some cached => if cached.isEmpty then get_members_miss upstream c now else (cached, c)
  | none => get_members_miss upstream c now

/-- main.py lines 738-740 (and likewise lines 776-778 and 808-811): after a
successful tag write, the endpoint invalidates only the raw tier:
`set_in_cache("members_raw", None, 0)`. -/
def invalidate_after_tag_write (c : MCache) (now : Nat) : MCache :=
  set_in_cache c now "members_raw" none 0

/-! ## The mutating flows as event traces

`pluralkit.set_front` (lines 108-127) first clears the "fronters" cache
(line 115), then issues the remote `POST /systems/@me/switches` (lines
117-122).  The endpoints of main.py compose it with reads, local-store
writes and broadcasts.  A trace records the externally visible steps of
one handler in program order. -/

inductive Ev where
  /-- `set_in_cache("fronters", None, 0)` (pluralkit.py line 115). -/
  | invalidateFronters
  /-- `set_in_cache("members_raw", None, 0)` (main.py lines 740, 778, 811). -/
  | invalidateMembersRaw
  /-- The remote `POST /systems/@me/switches` (pluralkit.py lines 117-122). -/
  | remoteSwitchPost
  /-- `create_dynamic_cofront(member_ids, custom_name)` (main.py line 590). -/
  | createCofront
  /-- `update_member_tags` writing member_tags.json (main.py line 735). -/
  | mutateTagStore
  /-- `set_member_status` writing the status store (main.py line 1155). -/
  | mutateStatusStore
  /-- `json.dump` to mental_state.json (main.py lines 368-369). -/
  | mutateMentalStateFile
  /-- `await get_fronters()`. -/
  | readFronters
  /-- `await get_members()`. -/
  | readMembers
  /-- `broadcast_fronting_update(fronters_data)`. -/
  | broadcastFronting
  /-- `broadcast_cofront_update(...)` (main.py lines 602-605). -/
  | broadcastCofront
  /-- `broadcast_mental_state_update(state_data)` (main.py line 372). -/
  | broadcastMentalState
  deriving DecidableEq, Repr

/-- The cache-invalidation steps. -/
def Ev.isInvalidation : Ev → Bool
  | Ev.invalidateFronters => true
  | Ev.invalidateMembersRaw => true
  | _ => false

/-- The re-read steps: a fresh fetch of a canonical value. -/
def Ev.isReRead : Ev → Bool
  | Ev.readFronters => true
  | Ev.readMembers => true
  | _ => false

/-- The broadcast steps. -/
def Ev.isBroadcast : Ev → Bool
  | Ev.broadcastFronting => true
  | Ev.broadcastCofront => true
  | Ev.broadcastMentalState => true
  | _ => false

/-- The steps `set_front` performs, in order (pluralkit.py lines 113-122). -/
def set_front_events : List Ev :=
  [Ev.invalidateFronters, Ev.remoteSwitchPost]

/-- The steps of a successful `/api/switch` request (main.py lines 477-481):
`set_front`, then `get_fronters()`, then the broadcast. -/
def switch_front_events : List Ev :=
  set_front_events ++ [Ev.readFronters, Ev.broadcastFronting]

/-- The steps of a successful `/api/multi_switch` request (main.py lines
536-554): `get_members()` (to name the switching members in the response),
`set_front`, then `get_fronters()`, then the broadcast. -/
def multi_switch_events : List Ev :=
  [Ev.readMembers] ++ set_front_events ++ [Ev.readFronters, Ev.broadcastFronting]

/-- The steps of a successful `/api/dynamic_cofront` request with
`set_as_current` (main.py lines 588-605): create the cofront, `set_front`,
`get_fronters()`, broadcast the fronting update, then broadcast the
cofront update. -/
def dynamic_cofront_events : List Ev :=
  [Ev.createCofront] ++ set_front_events ++
    [Ev.readFronters, Ev.broadcastFronting, Ev.broadcastCofront]

/-- The steps of a successful `/api/member-tags/{id}` update (main.py lines
726-746): write the tag store, then invalidate only "members_raw"; the
handler performs no re-read and no broadcast. -/
def update_member_tags_events : List Ev :=
  [Ev.mutateTagStore, Ev.invalidateMembersRaw]

/-- The steps of a successful `/api/members/{id}/status` update (main.py
lines 1134-1165): only the local status write; no invalidation, no
re-read, no broadcast. -/
def set_member_status_events : List Ev :=
  [Ev.mutateStatusStore]

/-- The steps of a successful `/api/mental-state` update (main.py lines
358-376): write the mental-state file, then broadcast the `state_data`
dict just written; no cache invalidation and no re-read. -/
def update_mental_state_events : List Ev :=
  [Ev.mutateMentalStateFile, Ev.broadcastMentalState]

/-- `a` happens strictly before `b` in the trace `t`. -/
def occursBefore (t : List Ev) (a b : Ev) : Prop :=
  a ∈ t ∧ b ∈ t ∧ t.indexOf a < t.indexOf b

instance (t : List Ev) (a b : Ev) : Decidable (occursBefore t a b) := by
  unfold occursBefore; infer_instance

/-- The fronters payload type: the remote fronters object is a JSON dict. -/
abbrev FrontersData := PyDict

/-- pluralkit.py line 115, the cache effect of `set_front` before the remote
write: `set_in_cache("fronters", None, 0)`. -/
def set_front_cache_effect (c : Cache FrontersData) (now : Nat) : Cache FrontersData :=
  set_in_cache c now "fronters" none 0

/-! ## set_front's remote response handling (pluralkit.py lines 117-127) -/

/-- The remote switch response as the code inspects it: a status code and the
body text (`resp.content` is truthy exactly when the text is nonempty, and
`resp.text` is its decoding). -/
structure RemoteResponse where
  status_code : Nat
  content : String
  deriving DecidableEq, Repr

/-- Lines 123-127: `if resp.status_code not in (200, 204)` raise an exception
carrying the status and body; else return the body when present, `None`
otherwise.  The returned body stands for `resp.json()`. -/
def set_front_response (resp : RemoteResponse) : Except String (Option String) :=
  if resp.status_code = 200 ∨ resp.status_code = 204 then
    Except.ok (if resp.content = "" then none else some resp.content)
  else
    Except.error
      ("Failed to set front: " ++ toString resp.status_code ++ " - " ++ resp.content)

def exceptIsOk {ε α : Type} (r : Except ε α) : Bool :=
  match r with
  | Except.ok _ => true
  | Except.error _ => false

/-! ## The /api/switch endpoint (main.py lines 461-485)

The whole handler body sits in one `try` whose only handler is
`except Exception as e: raise HTTPException(status_code=500, detail=str(e))`.
`fastapi.HTTPException` subclasses `Exception`, so the explicit
`HTTPException(400, ...)` raised by the over-limit check is itself caught
there and re-raised with status 500. -/

/-- An HTTPException as raised in the handler. -/
structure HTTPError where
  status_code : Nat
  detail : String
  deriving DecidableEq, Repr

/-- The outcome of one `/api/switch` request. -/
structure SwitchOutcome where
  /-- The status of the HTTPException that escapes the handler, if any. -/
  surfacedStatus : Option Nat
  /-- The exception the `try` body raised before reaching `set_front`, if any. -/
  raisedInTry : Option HTTPError
  /-- Whether `await set_front(...)` (and so the remote POST) was reached. -/
  remoteCalled : Bool
  deriving DecidableEq, Repr

/-- main.py lines 461-485, on a request whose body carries the given member
list.  `maxFronters` is the `MAX_FRONTERS` bound imported from the upstream
client (spec §6: a configured constant upper bound). -/
def switch_front (maxFronters : Nat) (member_ids : List String) : SwitchOutcome :=
  if member_ids.length > maxFronters then
    { surfacedStatus := some 500
      raisedInTry := some
        ⟨400, "Cannot have more than " ++ toString maxFronters ++
          " members fronting at once"⟩
      remoteCalled := false }
  else
    { surfacedStatus := none, raisedInTry := none, remoteCalled := true }

/-! ## The websocket ConnectionManager (main.py lines 192-268)

Connections are identified by a token (here a Nat standing for the
`WebSocket` object); `active_connections` is initialized with exactly the
groups "all" and "authenticated".  Whether a given connection's
`send_text` succeeds is a property of the connection, passed in as
`healthy`. -/

inductive Group where
  | all
  | authenticated
  deriving DecidableEq, Repr

/-- `active_connections`, a set of sockets per group. -/
structure ConnectionManager where
  allConns : List Nat
  authConns : List Nat
  deriving DecidableEq, Repr

/-- `set.discard(ws)`: remove the element if present, never raising. -/
def pyDiscard (l : List Nat) (ws : Nat) : List Nat :=
  l.filter (fun c => c != ws)

def ConnectionManager.group (m : ConnectionManager) : Group → List Nat
  | Group.all => m.allConns
  | Group.authenticated => m.authConns

/-- Line 208: `self.active_connections[group].discard(websocket)`. -/
def ConnectionManager.discardFrom (m : ConnectionManager) (ws : Nat) :
    Group → ConnectionManager
  | Group.all => { m with allConns := pyDiscard m.allConns ws }
  | Group.authenticated => { m with authConns := pyDiscard m.authConns ws }

/-- Lines 207-212: discard from the named group, then from every group. -/
def ConnectionManager.disconnect (m : ConnectionManager) (ws : Nat) (g : Group) :
    ConnectionManager :=
  let m1 := m.discardFrom ws g
  { allConns := pyDiscard m1.allConns ws, authConns := pyDiscard m1.authConns ws }

/-- Lines 222-237: send to every connection in a copy of the group; a failed
send only marks that connection, and after the loop each marked connection
is disconnected.  Yields the connections that received the message and the
manager state afterwards. -/
def ConnectionManager.broadcast (m : ConnectionManager) (healthy : Nat → Bool)
    (g : Group) : List Nat × ConnectionManager :=
  let conns := m.group g
  let delivered := conns.filter (fun c => healthy c)
  let disconnected := conns.filter (fun c => !healthy c)
  (delivered, disconnected.foldl (fun acc c => acc.disconnect c g) m)

/-! ## The tag store (subsystems.py) -/

/-- The persisted member-tag mapping, `member_tags.json`: identifier-or-name
key to tag list, insertion ordered. -/
abbrev TagMap := List (String × List String)

/-- `k in member_tags` / `member_tags[k]` combined: the first binding. -/
def tagLookup (mt : TagMap) (k : String) : Option (List String) :=
  match mt with
  | [] => none
  | (k', v) :: rest => if k' = k then some v else tagLookup rest k

/-- `member_tags[k] = v`: override in place, else append. -/
def tagMapSet (mt : TagMap) (k : String) (v : List String) : TagMap :=
  match mt with
  | [] => [(k, v)]
  | (k', v') :: rest => if k' = k then (k, v) :: rest else (k', v') :: tagMapSet rest k v

/-- subsystems.get_member_tags_by_id (lines 115-127): first try the member
NAME, then the member ID, else no tags. -/
def get_member_tags_by_id (member_tags : TagMap) (member_id member_name : String) :
    List String :=
  match tagLookup member_tags member_name with
  | some tags => tags
  | none =>
    match tagLookup member_tags member_id with
    | some tags => tags
    | none => []

/-- subsystems.remove_member_tag (lines 149-157): when the identifier is a
key and the tag is in its list, remove the first occurrence, save, return
True; else return False without saving.  The second component is the
persisted map after the call. -/
def remove_member_tag (mt : TagMap) (mid tag : String) : Bool × TagMap :=
  match tagLookup mt mid with
  | some tags =>
    if tag ∈ tags then (true, tagMapSet mt mid (tags.erase tag)) else (false, mt)
  | none => (false, mt)

/-! ## Lemmas about the connection manager -/

theorem mem_pyDiscard {l : List Nat} {ws c : Nat} :
    c ∈ pyDiscard l ws ↔ c ∈ l ∧ c ≠ ws := by
  simp [pyDiscard, List.mem_filter]

theorem pyDiscard_eq_self {l : List Nat} {ws : Nat} (h : ws ∉ l) :
    pyDiscard l ws = l :=
  List.filter_eq_self.mpr (fun a ha => by
    simp only [bne_iff_ne, ne_eq]
    exact fun e => h (e ▸ ha))

theorem disconnect_not_mem (m : ConnectionManager) (c : Nat) (g : Group) :
    c ∉ (m.disconnect c g).allConns ∧ c ∉ (m.disconnect c g).authConns := by
  constructor <;>
    · intro h
      rw [ConnectionManager.disconnect, mem_pyDiscard] at h
      exact h.2 rfl

theorem disconnect_no_new_mem (m : ConnectionManager) (c d : Nat) (g : Group) :
    (c ∉ m.allConns → c ∉ (m.disconnect d g).allConns) ∧
    (c ∉ m.authConns → c ∉ (m.disconnect d g).authConns) := by
  cases g <;>
    constructor <;>
    · intro hna h
      simp only [ConnectionManager.disconnect, ConnectionManager.discardFrom,
        mem_pyDiscard] at h
      tauto

theorem foldl_disconnect_stable (g : Group) (c : Nat) :
    ∀ (ds : List Nat) (m : ConnectionManager),
      c ∉ m.allConns → c ∉ m.authConns →
      c ∉ (ds.foldl (fun acc d => acc.disconnect d g) m).allConns ∧
      c ∉ (ds.foldl (fun acc d => acc.disconnect d g) m).authConns := by
  intro ds
  induction ds with
  | nil => exact fun m h1 h2 => ⟨h1, h2⟩
  | cons d tl ih =>
    intro m h1 h2
    exact ih (m.disconnect d g)
      ((disconnect_no_new_mem m c d g).1 h1)
      ((disconnect_no_new_mem m c d g).2 h2)

theorem foldl_disconnect_removes (g : Group) (c : Nat) :
    ∀ (ds : List Nat) (m : ConnectionManager), c ∈ ds →
      c ∉ (ds.foldl (fun acc d => acc.disconnect d g) m).allConns ∧
      c ∉ (ds.foldl (fun acc d => acc.disconnect d g) m).authConns := by
  intro ds
  induction ds with
  | nil => intro m h; cases h
  | cons d tl ih =>
    intro m h
    by_cases hd : c ∈ tl
    · exact ih (m.disconnect d g) hd
    · have : c = d := by
        rcases List.mem_cons.mp h with h' | h'
        · exact h'
        · exact absurd h' hd
      subst this
      exact foldl_disconnect_stable g c tl (m.disconnect c g)
        (disconnect_not_mem m c g).1 (disconnect_not_mem m c g).2

theorem disconnect_noop (m : ConnectionManager) (ws : Nat) (g : Group)
    (h1 : ws ∉ m.allConns) (h2 : ws ∉ m.authConns) : m.disconnect ws g = m := by
  obtain ⟨a, b⟩ := m
  cases g <;>
    simp_all [ConnectionManager.disconnect, ConnectionManager.discardFrom,
      pyDiscard_eq_self]

/-! ## Claim theorems -/

/-- A concrete upstream member list used in the cache scenarios. -/
def exampleRawA : MemberList := [[("name", Val.vstr "Alice"), ("id", Val.vstr "a1")]]

/-- A different upstream member list (the canonical data after a change). -/
def exampleRawB : MemberList := [[("name", Val.vstr "Bob"), ("id", Val.vstr "a1")]]

/-- The cache after a member fetch at time 0 filled both tiers and a tag
write invalidated only "members_raw" at time 1. -/
def exampleCacheAfterTagWrite : MCache :=
  invalidate_after_tag_write (get_members exampleRawA [] 0).2 1

/-- C1: the tag-write endpoints invalidate only "members_raw", not "members";
after such a write (time 1) the raw tier reads absent, yet the processed
tier still serves the list derived from the invalidated raw data, and a
subsequent member fetch (time 2, upstream data changed) returns that stale
processed list — the joint-invalidation property fails. -/
theorem members_cache_not_jointly_invalidated :
    get_from_cache exampleCacheAfterTagWrite 2 "members_raw" = none ∧
    get_from_cache exampleCacheAfterTagWrite 2 "members"
      = some (processMembers exampleRawA) ∧
    (get_members exampleRawB exampleCacheAfterTagWrite 2).1
      = processMembers exampleRawA ∧
    processMembers exampleRawA ≠ processMembers exampleRawB := by
  refine ⟨rfl, rfl, rfl, by decide⟩

/-- C2 counterexample: in the `/api/switch` flow the mutation (the remote
switch POST) does not happen before the "fronters" cache invalidation —
the code invalidates first, so "invalidation strictly between mutation and
re-read" is false. -/
theorem switch_front_mutation_not_before_invalidation :
    ¬ occursBefore switch_front_events Ev.remoteSwitchPost Ev.invalidateFronters := by
  decide

/-- C2 (amended): the step order of every state-mutating operation, per
operation.  In each of the three front-switch flows (`/api/switch`,
`/api/multi_switch`, `/api/dynamic_cofront` with `set_as_current`) the
order is: cache invalidation, then the mutation (the remote switch POST),
then the re-read of the fresh fronters value, then the broadcast —
invalidation comes strictly BEFORE the mutation, not between mutation and
re-read.  The tag update mutates the local store and then invalidates,
but performs no re-read and no broadcast; the member-status update
performs only the mutation; the mental-state update mutates and then
broadcasts the value it just wrote, with no invalidation and no
re-read. -/
theorem mutating_operations_step_order :
    (occursBefore switch_front_events Ev.invalidateFronters Ev.remoteSwitchPost ∧
      occursBefore switch_front_events Ev.remoteSwitchPost Ev.readFronters ∧
      occursBefore switch_front_events Ev.readFronters Ev.broadcastFronting) ∧
    (occursBefore multi_switch_events Ev.invalidateFronters Ev.remoteSwitchPost ∧
      occursBefore multi_switch_events Ev.remoteSwitchPost Ev.readFronters ∧
      occursBefore multi_switch_events Ev.readFronters Ev.broadcastFronting) ∧
    (occursBefore dynamic_cofront_events Ev.invalidateFronters Ev.remoteSwitchPost ∧
      occursBefore dynamic_cofront_events Ev.remoteSwitchPost Ev.readFronters ∧
      occursBefore dynamic_cofront_events Ev.readFronters Ev.broadcastFronting) ∧
    (occursBefore update_member_tags_events Ev.mutateTagStore Ev.invalidateMembersRaw ∧
      update_member_tags_events.all (fun e => ! e.isReRead) = true ∧
      update_member_tags_events.all (fun e => ! e.isBroadcast) = true) ∧
    (set_member_status_events = [Ev.mutateStatusStore] ∧
      set_member_status_events.all (fun e => ! e.isInvalidation) = true ∧
      set_member_status_events.all (fun e => ! e.isReRead) = true ∧
      set_member_status_events.all (fun e => ! e.isBroadcast) = true) ∧
    (occursBefore update_mental_state_events
        Ev.mutateMentalStateFile Ev.broadcastMentalState ∧
      update_mental_state_events.all (fun e => ! e.isInvalidation) = true ∧
      update_mental_state_events.all (fun e => ! e.isReRead) = true) := by
  decide

/-- C3: `set_front` invalidates the "fronters" cache entry strictly before
issuing the remote switch write, and once the invalidation has run, a read
of "fronters" at any time reports absent — a reader interleaved between the
invalidation and the completion of the remote write cannot observe a stale
cache hit. -/
theorem set_front_invalidates_before_remote_write :
    occursBefore set_front_events Ev.invalidateFronters Ev.remoteSwitchPost ∧
    ∀ (c : Cache FrontersData) (now t : Nat),
      get_from_cache (set_front_cache_effect c now) t "fronters" = none := by
  refine ⟨by decide, ?_⟩
  intro c now t
  exact get_from_cache_set_none c now 0 t "fronters"

/-- C4: broadcasting to a group delivers to every connection whose send
succeeds — a failing connection never aborts delivery to the rest — and
every connection whose send fails is removed from every group. -/
theorem broadcast_failure_isolation (m : ConnectionManager) (g : Group)
    (healthy : Nat → Bool) (c : Nat) (hc : c ∈ m.group g) :
    (healthy c = true → c ∈ (m.broadcast healthy g).1) ∧
    (healthy c = false →
      c ∉ (m.broadcast healthy g).2.allConns ∧
      c ∉ (m.broadcast healthy g).2.authConns) := by
  constructor
  · intro hh
    exact List.mem_filter.mpr ⟨hc, hh⟩
  · intro hh
    have hmem : c ∈ (m.group g).filter (fun c => !healthy c) :=
      List.mem_filter.mpr ⟨hc, by rw [hh]; rfl⟩
    exact foldl_disconnect_removes g c ((m.group g).filter (fun c => !healthy c)) m hmem

/-- C4 witness: in a manager with connections 1 and 2 in group "all" (2 also
authenticated) where only connection 1's send succeeds, 1 receives the
broadcast and 2 is removed from both groups. -/
theorem broadcast_failure_isolation_witness :
    (1 ∈ ((ConnectionManager.mk [1, 2] [2]).broadcast (fun c => c == 1) Group.all).1) ∧
    (2 ∉ ((ConnectionManager.mk [1, 2] [2]).broadcast
        (fun c => c == 1) Group.all).2.allConns ∧
      2 ∉ ((ConnectionManager.mk [1, 2] [2]).broadcast
        (fun c => c == 1) Group.all).2.authConns) :=
  ⟨(broadcast_failure_isolation (ConnectionManager.mk [1, 2] [2]) Group.all
      (fun c => c == 1) 1 (by decide)).1 (by decide),
    (broadcast_failure_isolation (ConnectionManager.mk [1, 2] [2]) Group.all
      (fun c => c == 1) 2 (by decide)).2 (by decide)⟩

/-- C5: with MAX_FRONTERS = 5, a six-member `/api/switch` request is rejected
before `set_front` (so before any remote call), but the explicit
HTTPException(400) raised by the over-limit check is caught by the
handler's bare `except Exception` clause and surfaces to the client as
status 500 — a server error, not the client error the claim states. -/
theorem switch_front_over_limit_rejected_as_500 :
    switch_front 5 ["a", "b", "c", "d", "e", "f"] =
      { surfacedStatus := some 500
        raisedInTry := some ⟨400, "Cannot have more than 5 members fronting at once"⟩
        remoteCalled := false } := by
  rfl

/-- C6 counterexample: a 2xx remote status other than 200 or 204 — here 201 —
makes `set_front` raise instead of succeed, so "2xx implies success" is
false. -/
theorem set_front_status_201_fails :
    (200 ≤ 201 ∧ 201 < 300) ∧
    set_front_response ⟨201, "created"⟩ =
      Except.error "Failed to set front: 201 - created" :=
  ⟨by decide, rfl⟩

/-- C6 (amended): `set_front` treats exactly the remote statuses 200 and 204
as success — any other status, other 2xx codes included, raises an error
surfacing the remote status and body; on success the remote body is
returned when present, else a success-with-no-body result. -/
theorem set_front_response_amended (resp : RemoteResponse) :
    (exceptIsOk (set_front_response resp) = true ↔
      (resp.status_code = 200 ∨ resp.status_code = 204)) ∧
    (resp.status_code = 200 ∨ resp.status_code = 204 →
      set_front_response resp =
        Except.ok (if resp.content = "" then none else some resp.content)) ∧
    (¬ (resp.status_code = 200 ∨ resp.status_code = 204) →
      set_front_response resp =
        Except.error ("Failed to set front: " ++ toString resp.status_code ++ " - " ++
          resp.content)) := by
  unfold set_front_response exceptIsOk
  by_cases h : resp.status_code = 200 ∨ resp.status_code = 204 <;> simp [h]

/-- C7 counterexample: with both the member's identifier and the member's
name present as keys of the tag map, tag resolution returns the NAME's tag
list, not the identifier's. -/
theorem tag_lookup_collision_name_wins :
    tagLookup [("idX", ["byId"]), ("nameX", ["byName"])] "idX" = some ["byId"] ∧
    tagLookup [("idX", ["byId"]), ("nameX", ["byName"])] "nameX" = some ["byName"] ∧
    get_member_tags_by_id [("idX", ["byId"]), ("nameX", ["byName"])] "idX" "nameX"
      = ["byName"] ∧
    (["byName"] : List String) ≠ ["byId"] :=
  ⟨rfl, rfl, rfl, by decide⟩

/-- C7 (amended): tag enrichment resolves by name first — whenever the
member's name is a key of the tag map (a collision with the identifier
included), the name's tag list is returned; the identifier is consulted
only when the name is absent. -/
theorem tag_lookup_name_precedence (mt : TagMap) (mid mname : String)
    (tags : List String) (h : tagLookup mt mname = some tags) :
    get_member_tags_by_id mt mid mname = tags := by
  unfold get_member_tags_by_id
  rw [h]

/-- C7 witness: a concrete map where the name is a key. -/
theorem tag_lookup_name_precedence_witness :
    get_member_tags_by_id [("n", ["t"])] "i" "n" = ["t"] :=
  tag_lookup_name_precedence [("n", ["t"])] "i" "n" ["t"] rfl

/-- C8: disconnect removes the connection from the named group and from every
other group; it is idempotent — disconnecting again (from any group)
changes nothing — and disconnecting a connection registered in no group is
a no-op (the operation is total, so no error is raised). -/
theorem disconnect_removes_everywhere_idempotent (m : ConnectionManager)
    (ws : Nat) (g g' : Group) :
    ws ∉ (m.disconnect ws g).group g' ∧
    (m.disconnect ws g).disconnect ws g' = m.disconnect ws g ∧
    (ws ∉ m.allConns → ws ∉ m.authConns → m.disconnect ws g = m) := by
  refine ⟨?_, ?_, fun h1 h2 => disconnect_noop m ws g h1 h2⟩
  · cases g'
    · exact (disconnect_not_mem m ws g).1
    · exact (disconnect_not_mem m ws g).2
  · exact disconnect_noop (m.disconnect ws g) ws g'
      (disconnect_not_mem m ws g).1 (disconnect_not_mem m ws g).2

/-- C9: a member record literally named "system" appears in the processed
member list with display name "Unsure" and is_special = true, every other
field of the record unchanged.  `horig` records that the upstream record
carries no "original_name" key: that key (like "is_special") is an overlay
this code itself adds, never part of upstream data. -/
theorem system_member_processed_as_unsure (data : List PyDict) (m : PyDict)
    (hmem : m ∈ data) (hname : dictGet m "name" = some (Val.vstr "system"))
    (horig : dictGet m "original_name" = none) :
    processMember m ∈ processMembers data ∧
    dictGet (processMember m) "display_name" = some (Val.vstr "Unsure") ∧
    dictGet (processMember m) "is_special" = some (Val.vbool true) ∧
    ∀ k, (dictGet m k).isSome = true → k ≠ "display_name" → k ≠ "is_special" →
      dictGet (processMember m) k = dictGet m k := by
  have hpm : processMember m =
      dictSet (dictSet (dictSet m "display_name" (Val.vstr "Unsure"))
        "is_special" (Val.vbool true)) "original_name" (Val.vstr "system") := by
    unfold processMember
    rw [hname]
    exact rfl
  refine ⟨List.mem_map_of_mem _ hmem, ?_, ?_, ?_⟩
  · rw [hpm, dictGet_dictSet_ne _ _ _ _ (by decide),
      dictGet_dictSet_ne _ _ _ _ (by decide)]
    exact dictGet_dictSet_self _ _ _
  · rw [hpm, dictGet_dictSet_ne _ _ _ _ (by decide)]
    exact dictGet_dictSet_self _ _ _
  · intro k hk h1 h2
    by_cases h3 : k = "original_name"
    · rw [h3, horig] at hk
      cases hk
    · rw [hpm, dictGet_dictSet_ne _ _ _ _ (Ne.symm h3),
        dictGet_dictSet_ne _ _ _ _ (Ne.symm h2),
        dictGet_dictSet_ne _ _ _ _ (Ne.symm h1)]

/-- C9 witness: a concrete record named "system". -/
theorem system_member_processed_as_unsure_witness :
    dictGet (processMember [("name", Val.vstr "system"), ("id", Val.vstr "abcde")])
        "display_name" = some (Val.vstr "Unsure") ∧
    dictGet (processMember [("name", Val.vstr "system"), ("id", Val.vstr "abcde")])
        "is_special" = some (Val.vbool true) ∧
    dictGet (processMember [("name", Val.vstr "system"), ("id", Val.vstr "abcde")])
        "id" = some (Val.vstr "abcde") :=
  have h := system_member_processed_as_unsure
    [[("name", Val.vstr "system"), ("id", Val.vstr "abcde")]]
    [("name", Val.vstr "system"), ("id", Val.vstr "abcde")]
    (List.mem_singleton.mpr rfl) rfl rfl
  ⟨h.2.1, h.2.2.1, h.2.2.2 "id" (by decide) (by decide) (by decide)⟩

/-- C10: remove_member_tag returns True exactly when the identifier is a key
of the persisted map and the tag is in that identifier's list; on success
the persisted map becomes the map with the first occurrence of the tag
removed from that list (the write), and on failure the persisted map is
left completely unchanged. -/
theorem remove_member_tag_spec (mt : TagMap) (mid tag : String) :
    ((remove_member_tag mt mid tag).1 = true ↔
      ∃ tags, tagLookup mt mid = some tags ∧ tag ∈ tags) ∧
    ((remove_member_tag mt mid tag).1 = false →
      (remove_member_tag mt mid tag).2 = mt) ∧
    (∀ tags, tagLookup mt mid = some tags → tag ∈ tags →
      (remove_member_tag mt mid tag).2 = tagMapSet mt mid (tags.erase tag)) := by
  rcases h : tagLookup mt mid with _ | tags
  · simp [remove_member_tag, h]
  · by_cases ht : tag ∈ tags <;> simp [remove_member_tag, h, ht]

end Dough
